import Mathlib

/-!
Shallow embedding of the beta-reader access and feedback subsystem of the
lyra backend (routes/readers router).  Database tables are modelled as
lists of rows inside a `DB` record; each HTTP handler becomes a pure
function from a `DB` (plus the request parameters and the current time)
to an outcome together with the successor `DB`.  Timestamps are natural
numbers; the JavaScript comparison `new Date(a) < new Date(b)` becomes
`a < b`.  JSONB equality on the `chapters_accessible` column compares
arrays element by element in order, so it is modelled as equality of
`List String`.
-/

namespace Lyra

/-- Invitation status column: `pending`, `accepted`, `expired`, `revoked`. -/
inductive Status
  | pending
  | accepted
  | expired
  | revoked
deriving DecidableEq, Repr

/-- One chapter of the `project_data` JSON document (only the fields the
reader endpoints touch: `id` and `name`). -/
structure Chapter where
  id : String
  name : String
deriving DecidableEq, Repr

/-- A chapter as returned by the access endpoint: the original fields plus
the derived `chapterNumber`. -/
structure FilteredChapter where
  id : String
  name : String
  chapterNumber : Nat
deriving DecidableEq, Repr

/-- Row of `reader_invitations`. -/
structure Invitation where
  id : Nat
  project_id : Nat
  user_id : Nat
  access_token : String
  chapters_accessible : List String
  invitation_message : String
  reader_name : String
  reader_email : String
  status : Status
  created_at : Nat
  expires_at : Nat
  accepted_at : Option Nat
  last_activity_at : Option Nat
  circle_name : String
  archived : Bool
deriving DecidableEq, Repr

/-- Row of `reader_sessions` (keyed by `invitation_id`; schema defaults:
`completion_percentage 0`, `notes ''`). -/
structure Session where
  invitation_id : Nat
  last_chapter_id : Option String
  completion_percentage : Int
  notes : String
  last_activity_at : Option Nat
deriving DecidableEq, Repr

/-- Row of `reader_markers`. -/
structure Marker where
  id : Nat
  invitation_id : Nat
  project_id : Nat
  chapter_id : String
  scene_id : String
  marker_id : String
  marker_type : String
  marker_text : String
  highlighted_text : String
  position_data : String
  imported_to_project : Bool
  imported_at : Option Nat
  created_at : Nat
deriving DecidableEq, Repr

/-- Row of `projects` (the fields the reader endpoints read: owner, title
and the chapter list inside `project_data`). -/
structure Project where
  project_id : Nat
  user_id : Nat
  title : String
  chapters : List Chapter
deriving DecidableEq, Repr

/-- Row of `users`; an empty string models a NULL / empty name (both are
falsy in the JavaScript `first_name && last_name` check). -/
structure User where
  user_id : Nat
  first_name : String
  last_name : String
  username : String
deriving DecidableEq, Repr

/-- The relational store, together with counters supplying fresh row ids. -/
structure DB where
  users : List User
  projects : List Project
  invitations : List Invitation
  sessions : List Session
  markers : List Marker
  nextInvId : Nat
  nextMarkerId : Nat
deriving DecidableEq, Repr

/-- `SELECT * FROM reader_invitations WHERE access_token = $1` (first row). -/
def findInvitationByToken (db : DB) (token : String) : Option Invitation :=
  db.invitations.find? (fun ri => ri.access_token == token)

/-- `SELECT * FROM projects WHERE project_id = $1` (first row). -/
def findProject (db : DB) (projectId : Nat) : Option Project :=
  db.projects.find? (fun p => p.project_id == projectId)

/-- `UPDATE reader_invitations SET ... WHERE id = $1`, with the SET clause
given as a row transformer. -/
def DB.updateInvitation (db : DB) (invId : Nat) (f : Invitation → Invitation) : DB :=
  { db with invitations := db.invitations.map (fun ri => if ri.id == invId then f ri else ri) }

/-- Status of the invitation a token resolves to (observer). -/
def statusByToken (db : DB) (token : String) : Option Status :=
  (findInvitationByToken db token).map (fun ri => ri.status)

/-- Last-activity timestamp of the invitation a token resolves to (observer). -/
def lastActivityByToken (db : DB) (token : String) : Option (Option Nat) :=
  (findInvitationByToken db token).map (fun ri => ri.last_activity_at)

/-- The `invitation` object of the access response. -/
structure InvitationMeta where
  id : Nat
  projectTitle : String
  readerName : String
  message : String
  expiresAt : Nat
  status : Status
deriving DecidableEq, Repr

/-- Outcome of `GET /access/:token`. -/
inductive AccessOutcome
  | notFound
  | expired
  | forbidden
  | granted (meta : InvitationMeta) (chapters : List FilteredChapter) (sess : Session)
deriving DecidableEq, Repr

/-- The chapter projection of the access endpoint: tag every chapter with
`chapterNumber = index + 1` computed on the unfiltered list, then keep the
chapters whose id occurs in `chapters_accessible`. -/
def filteredChapters (chapters : List Chapter) (accessibleChapters : List String) :
    List FilteredChapter :=
  (chapters.mapIdx (fun index ch =>
      { id := ch.id, name := ch.name, chapterNumber := index + 1 })).filter
    (fun ch => accessibleChapters.contains ch.id)

/-- `SELECT * FROM reader_sessions WHERE invitation_id = $1`, inserting a
fresh default row when none exists. -/
def getOrCreateSession (db : DB) (now : Nat) (invId : Nat) : Session × DB :=
  match db.sessions.find? (fun s => s.invitation_id == invId) with
  | some s => (s, db)
  | none =>
    let s : Session :=
      { invitation_id := invId, last_chapter_id := none, completion_percentage := 0,
        notes := "", last_activity_at := some now }
    (s, { db with sessions := db.sessions ++ [s] })

/-- `GET /access/:token`: look the invitation up by token (joined with its
project), expire it when past `expires_at`, refuse revoked invitations,
flip `pending` to `accepted` on first access, lazily create the session,
and return the metadata, filtered chapters and session.  The returned
`status` field is read from the row fetched before the acceptance update,
exactly as in the handler. -/
def resolveAccess (db : DB) (now : Nat) (token : String) : AccessOutcome × DB :=
  match findInvitationByToken db token with
  | none => (.notFound, db)
  | some inv =>
    match findProject db inv.project_id with
    | none => (.notFound, db)
    | some proj =>
      if inv.expires_at < now then
        (.expired, db.updateInvitation inv.id (fun ri => { ri with status := .expired }))
      else if inv.status = .revoked then
        (.forbidden, db)
      else
        let db1 :=
          if inv.status = .pending then
            db.updateInvitation inv.id
              (fun ri => { ri with status := .accepted, accepted_at := some now })
          else db
        let sd := getOrCreateSession db1 now inv.id
        (.granted
          { id := inv.id, projectTitle := proj.title, readerName := inv.reader_name,
            message := inv.invitation_message, expiresAt := inv.expires_at,
            status := inv.status }
          (filteredChapters proj.chapters inv.chapters_accessible) sd.fst,
         sd.snd)

/-- Outcome of `POST /markers`. -/
inductive MarkerOutcome
  | notFound
  | forbidden
  | created (m : Marker)
deriving DecidableEq, Repr

/-- `POST /markers`: resolve the token, refuse when the status is revoked
or the invitation is past expiry, otherwise insert the marker row and
touch `last_activity_at`.  The granted chapter set is never consulted. -/
def createMarker (db : DB) (now : Nat)
    (accessToken chapterId sceneId markerId markerType markerText
      highlightedText positionData : String) : MarkerOutcome × DB :=
  match findInvitationByToken db accessToken with
  | none => (.notFound, db)
  | some inv =>
    if inv.status = .revoked ∨ inv.expires_at < now then
      (.forbidden, db)
    else
      let m : Marker :=
        { id := db.nextMarkerId, invitation_id := inv.id, project_id := inv.project_id,
          chapter_id := chapterId, scene_id := sceneId, marker_id := markerId,
          marker_type := markerType, marker_text := markerText,
          highlighted_text := highlightedText, position_data := positionData,
          imported_to_project := false, imported_at := none, created_at := now }
      let db1 := { db with markers := db.markers ++ [m], nextMarkerId := db.nextMarkerId + 1 }
      let db2 := db1.updateInvitation inv.id (fun ri => { ri with last_activity_at := some now })
      (.created m, db2)

/-- The annotation object returned by the marker import endpoint. -/
structure Annotation where
  id : String
  type : String
  text : String
  highlightedText : String
  positionData : String
  chapterId : String
  sceneId : String
  isReaderFeedback : Bool
  readerName : String
  createdAt : Nat
deriving DecidableEq, Repr

/-- Outcome of `POST /markers/:markerId/import`. -/
inductive ImportOutcome
  | notFound
  | imported (a : Annotation)
deriving DecidableEq, Repr

/-- The join `reader_markers JOIN reader_invitations JOIN projects` with
ownership filter `p.user_id = $authorId` of the import endpoint. -/
def lookupOwnedMarker (db : DB) (authorId : Nat) (markerRowId : Nat) :
    Option (Marker × Invitation) :=
  match db.markers.find? (fun m => m.id == markerRowId) with
  | none => none
  | some m =>
    match db.invitations.find? (fun ri => ri.id == m.invitation_id) with
    | none => none
    | some ri =>
      match db.projects.find? (fun p => p.project_id == ri.project_id && p.user_id == authorId) with
      | none => none
      | some _ => some (m, ri)

/-- `POST /markers/:markerId/import`: verify ownership through the
invitation's project, set the imported flag and timestamp, and return the
annotation object with the reader name prefixed into the text body. -/
def importMarker (db : DB) (now : Nat) (authorId : Nat) (markerRowId : Nat) :
    ImportOutcome × DB :=
  match lookupOwnedMarker db authorId markerRowId with
  | none => (.notFound, db)
  | some (m, ri) =>
    let db1 :=
      { db with markers := db.markers.map (fun mk =>
          if mk.id == markerRowId then
            { mk with imported_to_project := true, imported_at := some now }
          else mk) }
    (.imported
      { id := m.marker_id, type := m.marker_type,
        text := "[" ++ ri.reader_name ++ "]\n" ++ m.marker_text,
        highlightedText := m.highlighted_text, positionData := m.position_data,
        chapterId := m.chapter_id, sceneId := m.scene_id, isReaderFeedback := true,
        readerName := ri.reader_name, createdAt := m.created_at },
     db1)

/-- The argument record of `sendReaderInvitation`. -/
structure EmailPayload where
  readerEmail : String
  readerName : String
  projectTitle : String
  authorName : String
  accessToken : String
  expiresAt : Nat
  invitationMessage : String
  chapterNames : List String
deriving DecidableEq, Repr

/-- Outcome of `POST /invitations/:invitationId/resend`. -/
inductive ResendOutcome
  | notFound
  | expiredError
  | revokedError
  | sent (payload : EmailPayload)
  | emailFailed (payload : EmailPayload)
deriving DecidableEq, Repr

/-- `first_name && last_name ? first_name + " " + last_name : username`. -/
def authorDisplayName (u : User) : String :=
  if u.first_name ≠ "" ∧ u.last_name ≠ "" then
    u.first_name ++ " " ++ u.last_name
  else u.username

/-- Names of the accessible chapters, with the `ch.name || 'Untitled
Chapter'` fallback. -/
def chapterNamesFor (chapters : List Chapter) (accessible : List String) : List String :=
  (chapters.filter (fun ch => accessible.contains ch.id)).map
    (fun ch => if ch.name = "" then "Untitled Chapter" else ch.name)

/-- `POST /invitations/:invitationId/resend`: look the invitation up by id
and owner (joined with its project and the author row), refuse expired and
revoked invitations, otherwise re-send the email built from the original
token.  No branch writes to the store. -/
def resendInvitation (db : DB) (now : Nat) (authorId invitationId : Nat)
    (emailOk : Bool) : ResendOutcome × DB :=
  match db.invitations.find? (fun ri => ri.id == invitationId && ri.user_id == authorId) with
  | none => (.notFound, db)
  | some inv =>
    match findProject db inv.project_id with
    | none => (.notFound, db)
    | some proj =>
      match db.users.find? (fun u => u.user_id == proj.user_id) with
      | none => (.notFound, db)
      | some u =>
        if inv.expires_at < now then (.expiredError, db)
        else if inv.status = .revoked then (.revokedError, db)
        else
          let payload : EmailPayload :=
            { readerEmail := inv.reader_email, readerName := inv.reader_name,
              projectTitle := proj.title, authorName := authorDisplayName u,
              accessToken := inv.access_token, expiresAt := inv.expires_at,
              invitationMessage := inv.invitation_message,
              chapterNames := chapterNamesFor proj.chapters inv.chapters_accessible }
          (if emailOk then .sent payload else .emailFailed payload, db)

/-- One `{name, email}` entry of the `readers` request array. -/
structure Reader where
  name : String
  email : String
deriving DecidableEq, Repr

/-- `SELECT COUNT(*) FROM reader_invitations WHERE project_id = $1 AND
status IN ('pending','accepted') AND expires_at > NOW()`. -/
def activeInvitationCount (db : DB) (projectId : Nat) (now : Nat) : Nat :=
  (db.invitations.filter (fun ri =>
    ri.project_id == projectId &&
      (ri.status == .pending || ri.status == .accepted) && now < ri.expires_at)).length

/-- Outcome of `POST /invitations`. -/
inductive CreateOutcome
  | notFound
  | quotaExceeded (currentActive : Nat)
  | created (invitations : List Invitation) (emailErrors : List String)
deriving DecidableEq, Repr

/-- The rows inserted by the creation loop: one row per reader, with fresh
ids `nextId, nextId+1, ...` and tokens minted per loop position. -/
def newInvitationRows (projectId authorId : Nat) (chapters : List String)
    (message : String) (expiresAt now : Nat) (circle : String)
    (mkToken : Nat → String) : Nat → Nat → List Reader → List Invitation
  | _, _, [] => []
  | nextId, idx, reader :: rest =>
    { id := nextId, project_id := projectId, user_id := authorId,
      access_token := mkToken idx, chapters_accessible := chapters,
      invitation_message := message, reader_name := reader.name,
      reader_email := reader.email, status := .pending, created_at := now,
      expires_at := expiresAt, accepted_at := none, last_activity_at := none,
      circle_name := circle, archived := false }
      :: newInvitationRows projectId authorId chapters message expiresAt now circle
          mkToken (nextId + 1) (idx + 1) rest

/-- `POST /invitations`: check project ownership, enforce the 15-active
cap before inserting anything, then insert one row per reader and attempt
one email per reader.  `mkToken` stands for the random token generator and
`emailFails` for the delivery oracle; a failed delivery only lands in the
`emailErrors` side-channel and never rolls a row back. -/
def createInvitations (db : DB) (now : Nat) (authorId projectId : Nat)
    (chapters : List String) (invitationMessage : String) (readers : List Reader)
    (expiresAt : Nat) (circleName : Option String) (dateLabel : String)
    (mkToken : Nat → String) (emailFails : String → Bool) : CreateOutcome × DB :=
  match db.projects.find? (fun p => p.project_id == projectId && p.user_id == authorId) with
  | none => (.notFound, db)
  | some _ =>
    let currentActive := activeInvitationCount db projectId now
    if currentActive + readers.length > 15 then
      (.quotaExceeded currentActive, db)
    else
      let circle :=
        match circleName with
        | some c => if c = "" then "Draft Review - " ++ dateLabel else c
        | none => "Draft Review - " ++ dateLabel
      let rows := newInvitationRows projectId authorId chapters invitationMessage
        expiresAt now circle mkToken db.nextInvId 0 readers
      let errs := (readers.filter (fun r => emailFails r.email)).map (fun r => r.email)
      (.created rows errs,
        { db with invitations := db.invitations ++ rows,
                  nextInvId := db.nextInvId + readers.length })

/-- `ri.project_id = $2 AND ri.user_id = $3 AND p.project_id = ri.project_id
AND p.user_id = $3 AND ri.chapters_accessible::jsonb = $4::jsonb`: the row
filter of the circle rename/archive updates.  JSONB equality of arrays is
element-wise and order-sensitive, hence plain list equality. -/
def circleRowMatches (db : DB) (authorId projectId : Nat)
    (chaptersAccessible : List String) (ri : Invitation) : Bool :=
  ri.project_id == projectId && ri.user_id == authorId &&
    db.projects.any (fun p => p.project_id == ri.project_id && p.user_id == authorId) &&
    ri.chapters_accessible == chaptersAccessible

/-- Outcome of the circle rename/archive endpoints. -/
inductive CircleOutcome
  | notFound
  | updated (count : Nat)
deriving DecidableEq, Repr

/-- `PATCH /circles/:projectId/name`: batch-update `circle_name` on every
matching row; 404 when zero rows match. -/
def renameCircle (db : DB) (authorId projectId : Nat)
    (chaptersAccessible : List String) (circleName : String) : CircleOutcome × DB :=
  let count := (db.invitations.filter
    (circleRowMatches db authorId projectId chaptersAccessible)).length
  if count = 0 then (.notFound, db)
  else
    (.updated count,
      { db with invitations := db.invitations.map (fun ri =>
          if circleRowMatches db authorId projectId chaptersAccessible ri then
            { ri with circle_name := circleName }
          else ri) })

/-- `PATCH /circles/:projectId/archive`: batch-update `archived` on every
matching row; 404 when zero rows match. -/
def archiveCircle (db : DB) (authorId projectId : Nat)
    (chaptersAccessible : List String) (archived : Bool) : CircleOutcome × DB :=
  let count := (db.invitations.filter
    (circleRowMatches db authorId projectId chaptersAccessible)).length
  if count = 0 then (.notFound, db)
  else
    (.updated count,
      { db with invitations := db.invitations.map (fun ri =>
          if circleRowMatches db authorId projectId chaptersAccessible ri then
            { ri with archived := archived }
          else ri) })

/-- Outcome of `POST /progress`. -/
inductive ProgressOutcome
  | notFound
  | ok
deriving DecidableEq, Repr

/-- `POST /progress`: resolve the token (existence only — no status or
expiry check), update the session row keyed by the invitation id and touch
the invitation's `last_activity_at`. -/
def updateProgress (db : DB) (now : Nat) (accessToken : String)
    (chapterId : String) (completionPercentage : Int) : ProgressOutcome × DB :=
  match findInvitationByToken db accessToken with
  | none => (.notFound, db)
  | some inv =>
    let db1 := { db with sessions := db.sessions.map (fun s : Session =>
      if s.invitation_id == inv.id then
        { s with last_chapter_id := some chapterId,
                 completion_percentage := completionPercentage,
                 last_activity_at := some now }
      else s) }
    let db2 := db1.updateInvitation inv.id (fun ri => { ri with last_activity_at := some now })
    (.ok, db2)

/-- Outcome of `POST /notes` (`saved` carries `rows[0]?.notes || ''`). -/
inductive NotesOutcome
  | notFound
  | saved (returnedNotes : String)
deriving DecidableEq, Repr

/-- `POST /notes`: resolve the token (existence only — no status or expiry
check), write the notes into the session row and touch the invitation's
`last_activity_at`; the response echoes the updated row's notes, or the
empty string when no session row was updated. -/
def updateNotes (db : DB) (now : Nat) (accessToken : String) (notes : String) :
    NotesOutcome × DB :=
  match findInvitationByToken db accessToken with
  | none => (.notFound, db)
  | some inv =>
    let db1 := { db with sessions := db.sessions.map (fun s : Session =>
      if s.invitation_id == inv.id then
        { s with notes := notes, last_activity_at := some now }
      else s) }
    let db2 := db1.updateInvitation inv.id (fun ri => { ri with last_activity_at := some now })
    let returned := if db.sessions.any (fun s => s.invitation_id == inv.id) then notes else ""
    (.saved returned, db2)

/-! ## Helper lemmas -/

/-- `find?` over a mapped list, when the map preserves the predicate,
finds the image of the original hit. -/
theorem find?_map_pres {α : Type} (g : α → α) (p : α → Bool)
    (hp : ∀ x, p (g x) = p x) :
    ∀ l : List α, (l.map g).find? p = (l.find? p).map g := by
  intro l
  induction l with
  | nil => rfl
  | cons a t ih =>
    by_cases h : p a = true
    · rw [List.map_cons, List.find?_cons_of_pos _ ((hp a).trans h),
        List.find?_cons_of_pos _ h, Option.map_some']
    · rw [List.map_cons, List.find?_cons_of_neg _ (by simp [hp a, h]),
        List.find?_cons_of_neg _ (by simp [h]), ih]

/-- Updating an invitation row through a transformer that keeps the token
commutes with the token lookup. -/
theorem findInvitationByToken_updateInvitation (db : DB) (invId : Nat)
    (f : Invitation → Invitation)
    (hf : ∀ ri, (f ri).access_token = ri.access_token) (token : String) :
    findInvitationByToken (db.updateInvitation invId f) token
      = (findInvitationByToken db token).map
          (fun ri => if ri.id == invId then f ri else ri) := by
  unfold findInvitationByToken DB.updateInvitation
  exact find?_map_pres _ _
    (fun x => by by_cases hx : x.id == invId <;> simp [hx, hf]) _

/-- Token lookup after a status write on the found row. -/
theorem findInvitationByToken_setStatus (db : DB) (inv : Invitation)
    (token : String) (st : Status)
    (hfind : findInvitationByToken db token = some inv) :
    findInvitationByToken
        (db.updateInvitation inv.id (fun ri => { ri with status := st })) token
      = some { inv with status := st } := by
  rw [findInvitationByToken_updateInvitation db inv.id
    (fun ri => { ri with status := st }) (fun ri => rfl) token, hfind]
  simp

/-- The access handler on an invitation past its expiry: set the status to
`expired` and answer `Expired`. -/
theorem resolveAccess_expired_eq (db : DB) (now : Nat) (token : String)
    (inv : Invitation) (proj : Project)
    (hfind : findInvitationByToken db token = some inv)
    (hproj : findProject db inv.project_id = some proj)
    (hexp : inv.expires_at < now) :
    resolveAccess db now token
      = (.expired,
         db.updateInvitation inv.id (fun ri => { ri with status := .expired })) := by
  simp only [resolveAccess, hfind, hproj]
  rw [if_pos hexp]

/-- The access handler on a revoked invitation that is not past expiry:
answer `Forbidden` and leave the store unchanged. -/
theorem resolveAccess_revoked_eq (db : DB) (now : Nat) (token : String)
    (inv : Invitation) (proj : Project)
    (hfind : findInvitationByToken db token = some inv)
    (hproj : findProject db inv.project_id = some proj)
    (hexp : ¬ inv.expires_at < now) (hrev : inv.status = .revoked) :
    resolveAccess db now token = (.forbidden, db) := by
  simp only [resolveAccess, hfind, hproj]
  rw [if_neg hexp, if_pos hrev]

/-! ## Claim theorems -/

/-- Shared four-chapter example document (A, B, C, D). -/
def exampleChapters : List Chapter :=
  [{ id := "id-A", name := "A" }, { id := "id-B", name := "B" },
   { id := "id-C", name := "C" }, { id := "id-D", name := "D" }]

/-- C2: the chapters returned by ResolveAccess are exactly the chapters of
the project document whose id appears in `chapters_accessible`, each
tagged with `chapterNumber` equal to one plus its index in the unfiltered
chapter list; on the example `[A,B,C,D]` with accessible `[B,D]` the
numbers are 2 and 4; and every granted access response carries exactly
this chapter list. -/
theorem resolveAccess_chapter_numbering :
    (∀ (chapters : List Chapter) (acc : List String) (fc : FilteredChapter),
      fc ∈ filteredChapters chapters acc ↔
        ∃ i : Nat, ∃ hi : i < chapters.length,
          acc.contains (chapters.get ⟨i, hi⟩).id = true ∧
          fc = { id := (chapters.get ⟨i, hi⟩).id,
                 name := (chapters.get ⟨i, hi⟩).name,
                 chapterNumber := i + 1 }) ∧
    ((filteredChapters exampleChapters ["id-B", "id-D"]).map
        (fun fc => (fc.id, fc.chapterNumber)) = [("id-B", 2), ("id-D", 4)]) ∧
    (∀ (db : DB) (now : Nat) (token : String) (meta : InvitationMeta)
        (chs : List FilteredChapter) (sess : Session),
      (resolveAccess db now token).fst = .granted meta chs sess →
      ∃ inv proj, findInvitationByToken db token = some inv ∧
        findProject db inv.project_id = some proj ∧
        chs = filteredChapters proj.chapters inv.chapters_accessible) := by
  refine ⟨?_, by decide, ?_⟩
  · intro chapters acc fc
    unfold filteredChapters
    rw [List.mem_filter, List.mem_mapIdx]
    constructor
    · rintro ⟨⟨i, hi, rfl⟩, hacc⟩
      exact ⟨i, hi, by simpa using hacc, by simp [List.get_eq_getElem]⟩
    · rintro ⟨i, hi, hacc, rfl⟩
      exact ⟨⟨i, hi, by simp [List.get_eq_getElem]⟩, by simpa using hacc⟩
  · intro db now token meta chs sess h
    unfold resolveAccess at h
    split at h
    · simp at h
    · rename_i inv heq
      split at h
      · simp at h
      · rename_i proj heqp
        split at h
        · simp at h
        · split at h
          · simp at h
          · dsimp only at h
            simp only [AccessOutcome.granted.injEq] at h
            exact ⟨inv, proj, heq, heqp, h.2.1.symm⟩

/-- Witness for C2: on the example document, chapter B is returned with
chapter number 2. -/
theorem resolveAccess_chapter_numbering_witness :
    ({ id := "id-B", name := "B", chapterNumber := 2 } : FilteredChapter) ∈
      filteredChapters exampleChapters ["id-B", "id-D"] :=
  (resolveAccess_chapter_numbering.1 exampleChapters ["id-B", "id-D"] _).mpr
    ⟨1, by decide, by decide, by decide⟩

/-- C3: on an invitation past its expiry, ResolveAccess answers Expired,
persists status `expired`, and a second call (at any later instant also
past the expiry) again answers Expired and leaves status `expired`; no
content is returned by either call. -/
theorem resolveAccess_expiry_idempotent (db : DB) (now now2 : Nat) (token : String)
    (inv : Invitation) (proj : Project)
    (hfind : findInvitationByToken db token = some inv)
    (hproj : findProject db inv.project_id = some proj)
    (hexp : inv.expires_at < now) (hexp2 : inv.expires_at < now2) :
    (resolveAccess db now token).fst = .expired ∧
    statusByToken (resolveAccess db now token).snd token = some .expired ∧
    (resolveAccess (resolveAccess db now token).snd now2 token).fst = .expired ∧
    statusByToken (resolveAccess (resolveAccess db now token).snd now2 token).snd token
      = some .expired ∧
    (∀ meta chs sess, (resolveAccess db now token).fst ≠ .granted meta chs sess) ∧
    (∀ meta chs sess,
      (resolveAccess (resolveAccess db now token).snd now2 token).fst
        ≠ .granted meta chs sess) := by
  have h1 := resolveAccess_expired_eq db now token inv proj hfind hproj hexp
  have hfind1 := findInvitationByToken_setStatus db inv token .expired hfind
  have h2 := resolveAccess_expired_eq
    (db.updateInvitation inv.id (fun ri => { ri with status := .expired })) now2 token
    { inv with status := .expired } proj hfind1 hproj hexp2
  have hfind2 := findInvitationByToken_setStatus
    (db.updateInvitation inv.id (fun ri => { ri with status := .expired }))
    { inv with status := .expired } token .expired hfind1
  rw [h1]
  dsimp only
  rw [h2]
  dsimp only
  refine ⟨rfl, ?_, rfl, ?_, ?_, ?_⟩
  · unfold statusByToken
    rw [hfind1]
    rfl
  · unfold statusByToken
    rw [hfind2]
    rfl
  · intro meta chs sess h
    exact AccessOutcome.noConfusion h
  · intro meta chs sess h
    exact AccessOutcome.noConfusion h

/-- A pending invitation whose expiry (time 5) is already past at time 10. -/
def exExpiredInvitation : Invitation :=
  { id := 12, project_id := 1, user_id := 7, access_token := "tok-exp",
    chapters_accessible := ["ch-1"], invitation_message := "hello",
    reader_name := "Bea", reader_email := "bea@example.com", status := .pending,
    created_at := 0, expires_at := 5, accepted_at := none, last_activity_at := none,
    circle_name := "Circle", archived := false }

/-- Project used by the concrete examples and refutations. -/
def exProject : Project :=
  { project_id := 1, user_id := 7, title := "Novel",
    chapters := [{ id := "ch-1", name := "One" }, { id := "ch-2", name := "Two" }] }

/-- Store containing only the expired-pending invitation. -/
def exDbExpired : DB :=
  { users := [{ user_id := 7, first_name := "A", last_name := "B", username := "ab" }],
    projects := [exProject], invitations := [exExpiredInvitation], sessions := [],
    markers := [], nextInvId := 100, nextMarkerId := 100 }

/-- Witness for C3 at a concrete store and times 10 and 20. -/
theorem resolveAccess_expiry_idempotent_witness :
    (resolveAccess exDbExpired 10 "tok-exp").fst = .expired ∧
    statusByToken (resolveAccess (resolveAccess exDbExpired 10 "tok-exp").snd 20
      "tok-exp").snd "tok-exp" = some .expired := by
  have h := resolveAccess_expiry_idempotent exDbExpired 10 20 "tok-exp"
    exExpiredInvitation exProject rfl rfl (by decide) (by decide)
  exact ⟨h.1, h.2.2.2.1⟩

/-- C1 (amended): a revoked invitation never yields content; while its
expiry is still in the future, ResolveAccess answers Forbidden and leaves
the store (hence the `revoked` status) unchanged; but once `expires_at`
is in the past, ResolveAccess answers Expired and overwrites the status to
`expired`, so `revoked` is not literally terminal. -/
theorem resolveAccess_revoked_behavior (db : DB) (now : Nat) (token : String)
    (inv : Invitation) (proj : Project)
    (hfind : findInvitationByToken db token = some inv)
    (hproj : findProject db inv.project_id = some proj)
    (hrev : inv.status = .revoked) :
    (∀ meta chs sess, (resolveAccess db now token).fst ≠ .granted meta chs sess) ∧
    (¬ inv.expires_at < now → resolveAccess db now token = (.forbidden, db)) ∧
    (inv.expires_at < now →
      (resolveAccess db now token).fst = .expired ∧
      statusByToken (resolveAccess db now token).snd token = some .expired) := by
  refine ⟨?_, ?_, ?_⟩
  · intro meta chs sess
    by_cases hexp : inv.expires_at < now
    · rw [resolveAccess_expired_eq db now token inv proj hfind hproj hexp]
      intro h
      exact AccessOutcome.noConfusion h
    · rw [resolveAccess_revoked_eq db now token inv proj hfind hproj hexp hrev]
      intro h
      exact AccessOutcome.noConfusion h
  · intro hexp
    exact resolveAccess_revoked_eq db now token inv proj hfind hproj hexp hrev
  · intro hexp
    rw [resolveAccess_expired_eq db now token inv proj hfind hproj hexp]
    refine ⟨rfl, ?_⟩
    unfold statusByToken
    rw [findInvitationByToken_setStatus db inv token .expired hfind]
    rfl

/-- A revoked invitation whose expiry (time 5) is already past at time 10. -/
def exRevokedInvitation : Invitation :=
  { id := 11, project_id := 1, user_id := 7, access_token := "tok-revoked",
    chapters_accessible := ["ch-1"], invitation_message := "hi",
    reader_name := "Ann", reader_email := "ann@example.com", status := .revoked,
    created_at := 0, expires_at := 5, accepted_at := none, last_activity_at := none,
    circle_name := "Circle", archived := false }

/-- Store containing only the revoked invitation. -/
def exDbRevoked : DB :=
  { users := [{ user_id := 7, first_name := "A", last_name := "B", username := "ab" }],
    projects := [exProject], invitations := [exRevokedInvitation], sessions := [],
    markers := [], nextInvId := 100, nextMarkerId := 100 }

/-- C1 counterexample: at time 10 the revoked invitation with expiry 5 gets
`Expired`, not `Forbidden`, and its persisted status is overwritten from
`revoked` to `expired`. -/
theorem resolveAccess_revoked_not_terminal_cex :
    (resolveAccess exDbRevoked 10 "tok-revoked").fst = .expired ∧
    (resolveAccess exDbRevoked 10 "tok-revoked").fst ≠ .forbidden ∧
    statusByToken exDbRevoked "tok-revoked" = some .revoked ∧
    statusByToken (resolveAccess exDbRevoked 10 "tok-revoked").snd "tok-revoked"
      = some .expired := by
  decide

/-- Witness for the amended C1: at time 3 (before expiry) the revoked
invitation gets Forbidden and the store is unchanged. -/
theorem resolveAccess_revoked_behavior_witness :
    resolveAccess exDbRevoked 3 "tok-revoked" = (.forbidden, exDbRevoked) :=
  (resolveAccess_revoked_behavior exDbRevoked 3 "tok-revoked" exRevokedInvitation
    exProject rfl rfl rfl).2.1 (by decide)

/-- Length of the insertion loop output: one row per reader. -/
theorem newInvitationRows_length (projectId authorId : Nat) (chapters : List String)
    (message : String) (expiresAt now : Nat) (circle : String) (mkToken : Nat → String) :
    ∀ (nextId idx : Nat) (readers : List Reader),
      (newInvitationRows projectId authorId chapters message expiresAt now circle
        mkToken nextId idx readers).length = readers.length := by
  intro nextId idx readers
  induction readers generalizing nextId idx with
  | nil => rfl
  | cons r rest ih => simp [newInvitationRows, ih]

/-- The inserted rows carry exactly the readers' names and emails, in
order. -/
theorem newInvitationRows_readers (projectId authorId : Nat) (chapters : List String)
    (message : String) (expiresAt now : Nat) (circle : String) (mkToken : Nat → String) :
    ∀ (nextId idx : Nat) (readers : List Reader),
      (newInvitationRows projectId authorId chapters message expiresAt now circle
          mkToken nextId idx readers).map
        (fun ri => ({ name := ri.reader_name, email := ri.reader_email } : Reader))
        = readers := by
  intro nextId idx readers
  induction readers generalizing nextId idx with
  | nil => rfl
  | cons r rest ih => simp [newInvitationRows, ih]

/-- The inserted rows carry exactly the readers' emails, in order. -/
theorem newInvitationRows_emails (projectId authorId : Nat) (chapters : List String)
    (message : String) (expiresAt now : Nat) (circle : String) (mkToken : Nat → String) :
    ∀ (nextId idx : Nat) (readers : List Reader),
      (newInvitationRows projectId authorId chapters message expiresAt now circle
          mkToken nextId idx readers).map (fun ri => ri.reader_email)
        = readers.map (fun r => r.email) := by
  intro nextId idx readers
  induction readers generalizing nextId idx with
  | nil => rfl
  | cons r rest ih => simp [newInvitationRows, ih]

/-- C4: with the owning project present, creating N invitations fails with
QuotaExceeded and persists zero rows when the active count plus N exceeds
15, and otherwise inserts exactly one invitation row per reader. -/
theorem createInvitations_quota (db : DB) (now : Nat) (authorId projectId : Nat)
    (chapters : List String) (msg : String) (readers : List Reader)
    (expiresAt : Nat) (circleName : Option String) (dateLabel : String)
    (mkToken : Nat → String) (emailFails : String → Bool) (p : Project)
    (hproj : db.projects.find?
      (fun q => q.project_id == projectId && q.user_id == authorId) = some p) :
    (activeInvitationCount db projectId now + readers.length > 15 →
      createInvitations db now authorId projectId chapters msg readers expiresAt
          circleName dateLabel mkToken emailFails
        = (.quotaExceeded (activeInvitationCount db projectId now), db)) ∧
    (activeInvitationCount db projectId now + readers.length ≤ 15 →
      ∃ rows errs,
        (createInvitations db now authorId projectId chapters msg readers expiresAt
            circleName dateLabel mkToken emailFails).fst = .created rows errs ∧
        (createInvitations db now authorId projectId chapters msg readers expiresAt
            circleName dateLabel mkToken emailFails).snd.invitations
          = db.invitations ++ rows ∧
        rows.length = readers.length ∧
        rows.map (fun ri => ({ name := ri.reader_name, email := ri.reader_email } : Reader))
          = readers) := by
  constructor
  · intro hgt
    simp only [createInvitations, hproj]
    rw [if_pos hgt]
  · intro hle
    simp only [createInvitations, hproj]
    rw [if_neg (by omega)]
    exact ⟨_, _, rfl, rfl,
      newInvitationRows_length projectId authorId chapters msg expiresAt now _ mkToken
        db.nextInvId 0 readers,
      newInvitationRows_readers projectId authorId chapters msg expiresAt now _ mkToken
        db.nextInvId 0 readers⟩

/-- Sixteen identical readers, enough to blow the 15-cap on their own. -/
def sixteenReaders : List Reader :=
  List.replicate 16 { name := "R", email := "r@example.com" }

/-- Store with the example project and no invitations yet. -/
def exDbEmpty : DB :=
  { users := [{ user_id := 7, first_name := "A", last_name := "B", username := "ab" }],
    projects := [exProject], invitations := [], sessions := [],
    markers := [], nextInvId := 1, nextMarkerId := 1 }

/-- Witness for C4: sixteen readers against an empty project are refused
with QuotaExceeded and the store is unchanged. -/
theorem createInvitations_quota_witness :
    createInvitations exDbEmpty 0 7 1 ["ch-1"] "m" sixteenReaders 100 none
        "Oct 11, 2025" (fun _ => "t") (fun _ => false)
      = (.quotaExceeded 0, exDbEmpty) := by
  have h := (createInvitations_quota exDbEmpty 0 7 1 ["ch-1"] "m" sixteenReaders 100
    none "Oct 11, 2025" (fun _ => "t") (fun _ => false) exProject rfl).1 (by decide)
  exact h

/-- C9: under the quota, the email-delivery oracle has no influence on the
persisted store — every reader's row is inserted regardless of delivery
failures — and the call succeeds with the failing readers' emails reported
in the `emailErrors` side-channel. -/
theorem createInvitations_email_isolation (db : DB) (now : Nat)
    (authorId projectId : Nat) (chapters : List String) (msg : String)
    (readers : List Reader) (expiresAt : Nat) (circleName : Option String)
    (dateLabel : String) (mkToken : Nat → String) (p : Project)
    (hproj : db.projects.find?
      (fun q => q.project_id == projectId && q.user_id == authorId) = some p)
    (hle : activeInvitationCount db projectId now + readers.length ≤ 15)
    (emailFails : String → Bool) :
    ∃ rows,
      (createInvitations db now authorId projectId chapters msg readers expiresAt
          circleName dateLabel mkToken emailFails).fst
        = .created rows
            ((readers.filter (fun r => emailFails r.email)).map (fun r => r.email)) ∧
      (createInvitations db now authorId projectId chapters msg readers expiresAt
          circleName dateLabel mkToken emailFails).snd
        = (createInvitations db now authorId projectId chapters msg readers expiresAt
            circleName dateLabel mkToken (fun _ => false)).snd ∧
      (createInvitations db now authorId projectId chapters msg readers expiresAt
          circleName dateLabel mkToken emailFails).snd.invitations
        = db.invitations ++ rows ∧
      rows.map (fun ri => ri.reader_email) = readers.map (fun r => r.email) := by
  simp only [createInvitations, hproj]
  rw [if_neg (by omega), if_neg (by omega)]
  exact ⟨_, rfl, rfl, rfl,
    newInvitationRows_emails projectId authorId chapters msg expiresAt now _ mkToken
      db.nextInvId 0 readers⟩

/-- A single reader whose email delivery will fail. -/
def exReaderFail : List Reader := [{ name := "R", email := "fail@example.com" }]

/-- Witness for C9: with one reader and an always-failing mailer the call
still succeeds, reports the failing email, and produces the same store as
an always-succeeding mailer. -/
theorem createInvitations_email_isolation_witness :
    ∃ rows,
      (createInvitations exDbEmpty 0 7 1 ["ch-1"] "m" exReaderFail 100 none "O"
          (fun _ => "t") (fun _ => true)).fst = .created rows ["fail@example.com"] ∧
      (createInvitations exDbEmpty 0 7 1 ["ch-1"] "m" exReaderFail 100 none "O"
          (fun _ => "t") (fun _ => true)).snd
        = (createInvitations exDbEmpty 0 7 1 ["ch-1"] "m" exReaderFail 100 none "O"
            (fun _ => "t") (fun _ => false)).snd := by
  obtain ⟨rows, h1, h2, h3, h4⟩ := createInvitations_email_isolation exDbEmpty 0 7 1
    ["ch-1"] "m" exReaderFail 100 none "O" (fun _ => "t") exProject rfl (by decide)
    (fun _ => true)
  exact ⟨rows, h1, h2⟩

/-- If the stored chapter array differs from the supplied one as a list,
the circle row filter rejects the row — JSONB array equality is
order-sensitive. -/
theorem circleRowMatches_chapters_ne (db : DB) (authorId projectId : Nat)
    (acc : List String) (ri : Invitation) (h : ri.chapters_accessible ≠ acc) :
    circleRowMatches db authorId projectId acc ri = false := by
  unfold circleRowMatches
  simp [h]

/-- C5 (amended): RenameCircle and ArchiveCircle update exactly the
invitations of the given project and owner whose stored chapter array
equals the supplied `chaptersAccessible` as a list — JSONB equality on
arrays is element-wise and order-sensitive, so the same ids in a
different order do not match — and fail with NotFound, leaving the store
unchanged, when zero rows match. -/
theorem circle_updates_match_exact_list (db : DB) (authorId projectId : Nat)
    (acc : List String) (newName : String) (flag : Bool) :
    ((renameCircle db authorId projectId acc newName).fst = .notFound ↔
      ∀ ri ∈ db.invitations, circleRowMatches db authorId projectId acc ri = false) ∧
    ((renameCircle db authorId projectId acc newName).fst = .notFound →
      (renameCircle db authorId projectId acc newName).snd = db) ∧
    (∀ ri ∈ db.invitations, circleRowMatches db authorId projectId acc ri = true →
      ({ ri with circle_name := newName } : Invitation)
        ∈ (renameCircle db authorId projectId acc newName).snd.invitations) ∧
    (∀ ri ∈ db.invitations, ri.chapters_accessible ≠ acc →
      ri ∈ (renameCircle db authorId projectId acc newName).snd.invitations) ∧
    ((archiveCircle db authorId projectId acc flag).fst = .notFound ↔
      ∀ ri ∈ db.invitations, circleRowMatches db authorId projectId acc ri = false) ∧
    ((archiveCircle db authorId projectId acc flag).fst = .notFound →
      (archiveCircle db authorId projectId acc flag).snd = db) ∧
    (∀ ri ∈ db.invitations, circleRowMatches db authorId projectId acc ri = true →
      ({ ri with archived := flag } : Invitation)
        ∈ (archiveCircle db authorId projectId acc flag).snd.invitations) ∧
    (∀ ri ∈ db.invitations, ri.chapters_accessible ≠ acc →
      ri ∈ (archiveCircle db authorId projectId acc flag).snd.invitations) := by
  by_cases hc : (db.invitations.filter
      (circleRowMatches db authorId projectId acc)).length = 0
  · have hall : ∀ ri ∈ db.invitations,
        circleRowMatches db authorId projectId acc ri = false := by
      rw [List.length_eq_zero, List.filter_eq_nil_iff] at hc
      intro ri hri
      simpa using hc ri hri
    simp only [renameCircle, archiveCircle]
    rw [if_pos hc, if_pos hc]
    refine ⟨⟨fun _ => hall, fun _ => rfl⟩, fun _ => rfl, ?_, ?_,
      ⟨fun _ => hall, fun _ => rfl⟩, fun _ => rfl, ?_, ?_⟩
    · intro ri hri hmatch
      rw [hall ri hri] at hmatch
      exact absurd hmatch (by simp)
    · intro ri hri _
      exact hri
    · intro ri hri hmatch
      rw [hall ri hri] at hmatch
      exact absurd hmatch (by simp)
    · intro ri hri _
      exact hri
  · have hnotall : ¬ ∀ ri ∈ db.invitations,
        circleRowMatches db authorId projectId acc ri = false := by
      intro hall
      apply hc
      rw [List.length_eq_zero, List.filter_eq_nil_iff]
      intro ri hri
      simp [hall ri hri]
    simp only [renameCircle, archiveCircle]
    rw [if_neg hc, if_neg hc]
    refine ⟨⟨fun h => absurd h (by simp), fun h => absurd h hnotall⟩,
      fun h => absurd h (by simp), ?_, ?_,
      ⟨fun h => absurd h (by simp), fun h => absurd h hnotall⟩,
      fun h => absurd h (by simp), ?_, ?_⟩
    · intro ri hri hmatch
      refine List.mem_map.mpr ⟨ri, hri, ?_⟩
      simp [hmatch]
    · intro ri hri hne
      refine List.mem_map.mpr ⟨ri, hri, ?_⟩
      simp [circleRowMatches_chapters_ne db authorId projectId acc ri hne]
    · intro ri hri hmatch
      refine List.mem_map.mpr ⟨ri, hri, ?_⟩
      simp [hmatch]
    · intro ri hri hne
      refine List.mem_map.mpr ⟨ri, hri, ?_⟩
      simp [circleRowMatches_chapters_ne db authorId projectId acc ri hne]

/-- An invitation whose stored chapter array is `["a", "b"]`. -/
def exCircleInvitation : Invitation :=
  { id := 21, project_id := 1, user_id := 7, access_token := "tok-circle",
    chapters_accessible := ["a", "b"], invitation_message := "",
    reader_name := "Cal", reader_email := "cal@example.com", status := .pending,
    created_at := 0, expires_at := 100, accepted_at := none, last_activity_at := none,
    circle_name := "Old", archived := false }

/-- Store containing only the `["a", "b"]` invitation. -/
def exDbCircle : DB :=
  { users := [{ user_id := 7, first_name := "A", last_name := "B", username := "ab" }],
    projects := [exProject], invitations := [exCircleInvitation], sessions := [],
    markers := [], nextInvId := 100, nextMarkerId := 100 }

/-- C5 counterexample: the same chapter-id set supplied in a different
order (`["b", "a"]` against stored `["a", "b"]`) matches zero rows, so
both circle operations fail with NotFound; the original order matches. -/
theorem circle_update_order_sensitive_cex :
    exCircleInvitation.chapters_accessible = ["a", "b"] ∧
    exCircleInvitation ∈ exDbCircle.invitations ∧
    (renameCircle exDbCircle 7 1 ["b", "a"] "New").fst = .notFound ∧
    (archiveCircle exDbCircle 7 1 ["b", "a"] true).fst = .notFound ∧
    (renameCircle exDbCircle 7 1 ["a", "b"] "New").fst = .updated 1 := by
  decide

/-- Witness for the amended C5: supplied in the stored order, the row is
renamed. -/
theorem circle_updates_match_exact_list_witness :
    ({ exCircleInvitation with circle_name := "New" } : Invitation)
      ∈ (renameCircle exDbCircle 7 1 ["a", "b"] "New").snd.invitations :=
  (circle_updates_match_exact_list exDbCircle 7 1 ["a", "b"] "New" true).2.2.1
    exCircleInvitation (by decide) (by decide)

/-- C6 (amended): CreateMarker checks only the invitation's status and
expiry; it accepts and persists a marker even when the target chapter id
does not occur in the invitation's `chapters_accessible`. -/
theorem createMarker_ignores_chapter_scope (db : DB) (now : Nat)
    (tok chapterId sceneId mid mtype mtext htext pdata : String)
    (inv : Invitation) (hfind : findInvitationByToken db tok = some inv)
    (hstatus : inv.status ≠ .revoked) (hexp : ¬ inv.expires_at < now)
    (hout : inv.chapters_accessible.contains chapterId = false) :
    ∃ m : Marker,
      (createMarker db now tok chapterId sceneId mid mtype mtext htext pdata).fst
        = .created m ∧
      m.chapter_id = chapterId ∧ m.scene_id = sceneId ∧ m.invitation_id = inv.id ∧
      m ∈ (createMarker db now tok chapterId sceneId mid mtype mtext htext
        pdata).snd.markers := by
  simp only [createMarker, hfind]
  rw [if_neg (not_or.mpr ⟨hstatus, hexp⟩)]
  refine ⟨_, rfl, rfl, rfl, rfl, ?_⟩
  simp [DB.updateInvitation]

/-- An accepted, unexpired invitation granting only chapter `ch-1`. -/
def exAcceptedInvitation : Invitation :=
  { id := 13, project_id := 1, user_id := 7, access_token := "tok-acc",
    chapters_accessible := ["ch-1"], invitation_message := "",
    reader_name := "Dee", reader_email := "dee@example.com", status := .accepted,
    created_at := 0, expires_at := 100, accepted_at := some 1, last_activity_at := none,
    circle_name := "Circle", archived := false }

/-- Store containing only the accepted invitation. -/
def exDbAccepted : DB :=
  { users := [{ user_id := 7, first_name := "A", last_name := "B", username := "ab" }],
    projects := [exProject], invitations := [exAcceptedInvitation], sessions := [],
    markers := [], nextInvId := 100, nextMarkerId := 50 }

/-- C6 counterexample: a marker on chapter `ch-2`, which is outside the
invitation's granted set `["ch-1"]`, is accepted and persisted rather
than rejected. -/
theorem createMarker_outside_scope_accepted_cex :
    exAcceptedInvitation.chapters_accessible.contains "ch-2" = false ∧
    (createMarker exDbAccepted 10 "tok-acc" "ch-2" "sc-1" "m-1" "note" "txt" "hl"
        "pos").fst
      = .created
          { id := 50, invitation_id := 13, project_id := 1, chapter_id := "ch-2",
            scene_id := "sc-1", marker_id := "m-1", marker_type := "note",
            marker_text := "txt", highlighted_text := "hl", position_data := "pos",
            imported_to_project := false, imported_at := none, created_at := 10 } ∧
    (createMarker exDbAccepted 10 "tok-acc" "ch-2" "sc-1" "m-1" "note" "txt" "hl"
        "pos").snd.markers.length = 1 := by
  decide

/-- Witness for the amended C6 at the same concrete input. -/
theorem createMarker_ignores_chapter_scope_witness :
    ∃ m : Marker,
      (createMarker exDbAccepted 10 "tok-acc" "ch-2" "sc-1" "m-1" "note" "txt" "hl"
          "pos").fst = .created m ∧
      m.chapter_id = "ch-2" ∧ m.scene_id = "sc-1" ∧ m.invitation_id = 13 ∧
      m ∈ (createMarker exDbAccepted 10 "tok-acc" "ch-2" "sc-1" "m-1" "note" "txt"
        "hl" "pos").snd.markers := by
  obtain ⟨m, h1, h2, h3, h4, h5⟩ := createMarker_ignores_chapter_scope exDbAccepted 10
    "tok-acc" "ch-2" "sc-1" "m-1" "note" "txt" "hl" "pos" exAcceptedInvitation rfl
    (by decide) (by decide) (by decide)
  exact ⟨m, h1, h2, h3, h4, h5⟩

/-- C7: ResendInvitation fails with Expired past `expires_at`, with
Revoked on a revoked invitation, and otherwise (re-)sends the email built
from the invitation's original access token and original expiry; in every
outcome the store — hence the invitation row, its token, its expiry and
its status — is unchanged. -/
theorem resendInvitation_checks_and_immutability (db : DB) (now : Nat)
    (authorId invitationId : Nat) (emailOk : Bool) (inv : Invitation)
    (proj : Project) (u : User)
    (hfind : db.invitations.find?
      (fun ri => ri.id == invitationId && ri.user_id == authorId) = some inv)
    (hproj : findProject db inv.project_id = some proj)
    (huser : db.users.find? (fun x => x.user_id == proj.user_id) = some u) :
    (resendInvitation db now authorId invitationId emailOk).snd = db ∧
    (inv.expires_at < now →
      (resendInvitation db now authorId invitationId emailOk).fst = .expiredError) ∧
    (¬ inv.expires_at < now → inv.status = .revoked →
      (resendInvitation db now authorId invitationId emailOk).fst = .revokedError) ∧
    (¬ inv.expires_at < now → inv.status ≠ .revoked →
      ∃ payload : EmailPayload,
        (resendInvitation db now authorId invitationId emailOk).fst
          = (if emailOk then .sent payload else .emailFailed payload) ∧
        payload.accessToken = inv.access_token ∧
        payload.expiresAt = inv.expires_at ∧
        payload.readerEmail = inv.reader_email) := by
  simp only [resendInvitation, hfind, hproj, huser]
  refine ⟨?_, ?_, ?_, ?_⟩
  · by_cases h1 : inv.expires_at < now
    · rw [if_pos h1]
    · rw [if_neg h1]
      by_cases h2 : inv.status = .revoked
      · rw [if_pos h2]
      · rw [if_neg h2]
  · intro h1
    rw [if_pos h1]
  · intro h1 h2
    rw [if_neg h1, if_pos h2]
  · intro h1 h2
    rw [if_neg h1, if_neg h2]
    exact ⟨_, rfl, rfl, rfl, rfl⟩

/-- A pending invitation that is still within its expiry window. -/
def exPendingInvitation : Invitation :=
  { id := 14, project_id := 1, user_id := 7, access_token := "tok-pend",
    chapters_accessible := ["ch-1", "ch-2"], invitation_message := "enjoy",
    reader_name := "Eve", reader_email := "eve@example.com", status := .pending,
    created_at := 0, expires_at := 100, accepted_at := none, last_activity_at := none,
    circle_name := "Circle", archived := false }

/-- Store containing only the pending invitation. -/
def exDbPending : DB :=
  { users := [{ user_id := 7, first_name := "A", last_name := "B", username := "ab" }],
    projects := [exProject], invitations := [exPendingInvitation], sessions := [],
    markers := [], nextInvId := 100, nextMarkerId := 100 }

/-- Witness for C7: resending the pending invitation at time 10 leaves the
store unchanged and sends the original token. -/
theorem resendInvitation_checks_and_immutability_witness :
    (resendInvitation exDbPending 10 7 14 true).snd = exDbPending ∧
    ∃ payload : EmailPayload,
      (resendInvitation exDbPending 10 7 14 true).fst
        = (if true then .sent payload else .emailFailed payload) ∧
      payload.accessToken = "tok-pend" ∧ payload.expiresAt = 100 ∧
      payload.readerEmail = "eve@example.com" := by
  obtain ⟨h1, h2, h3, h4⟩ := resendInvitation_checks_and_immutability exDbPending 10 7
    14 true exPendingInvitation exProject
    { user_id := 7, first_name := "A", last_name := "B", username := "ab" }
    rfl rfl rfl
  obtain ⟨payload, hp1, hp2, hp3, hp4⟩ := h4 (by decide) (by decide)
  exact ⟨h1, payload, hp1, hp2, hp3, hp4⟩

/-- Replacing the sessions table does not affect the token lookup. -/
theorem findInvitationByToken_set_sessions (db : DB) (ss : List Session)
    (tok : String) :
    findInvitationByToken { db with sessions := ss } tok
      = findInvitationByToken db tok := rfl

/-- C10: UpdateProgress and UpdateNotes resolve the token by existence
only — even on a revoked or expired invitation, or one past its expiry,
both succeed, update the session row keyed by the invitation and touch
the invitation's `last_activity_at`. -/
theorem progress_notes_ignore_status (db : DB) (now : Nat) (tok chapterId : String)
    (pct : Int) (notes : String) (inv : Invitation)
    (hfind : findInvitationByToken db tok = some inv)
    (hdead : inv.status = .revoked ∨ inv.status = .expired ∨ inv.expires_at < now) :
    (updateProgress db now tok chapterId pct).fst = .ok ∧
    lastActivityByToken (updateProgress db now tok chapterId pct).snd tok
      = some (some now) ∧
    (∀ s ∈ db.sessions, s.invitation_id = inv.id →
      ({ s with last_chapter_id := some chapterId,
                completion_percentage := pct,
                last_activity_at := some now } : Session)
        ∈ (updateProgress db now tok chapterId pct).snd.sessions) ∧
    (∃ r, (updateNotes db now tok notes).fst = .saved r) ∧
    lastActivityByToken (updateNotes db now tok notes).snd tok = some (some now) ∧
    (∀ s ∈ db.sessions, s.invitation_id = inv.id →
      ({ s with notes := notes, last_activity_at := some now } : Session)
        ∈ (updateNotes db now tok notes).snd.sessions) := by
  simp only [updateProgress, updateNotes, hfind]
  refine ⟨trivial, ?_, ?_, ⟨_, rfl⟩, ?_, ?_⟩
  · unfold lastActivityByToken
    rw [findInvitationByToken_updateInvitation _ inv.id
      (fun ri => { ri with last_activity_at := some now }) (fun ri => rfl) tok,
      findInvitationByToken_set_sessions, hfind]
    simp
  · intro s hs hsid
    refine List.mem_map.mpr ⟨s, hs, ?_⟩
    simp [hsid]
  · unfold lastActivityByToken
    rw [findInvitationByToken_updateInvitation _ inv.id
      (fun ri => { ri with last_activity_at := some now }) (fun ri => rfl) tok,
      findInvitationByToken_set_sessions, hfind]
    simp
  · intro s hs hsid
    refine List.mem_map.mpr ⟨s, hs, ?_⟩
    simp [hsid]

/-- Store with the revoked invitation and its session row. -/
def exDbRevokedSession : DB :=
  { users := [{ user_id := 7, first_name := "A", last_name := "B", username := "ab" }],
    projects := [exProject], invitations := [exRevokedInvitation],
    sessions := [{ invitation_id := 11, last_chapter_id := none,
                   completion_percentage := 0, notes := "",
                   last_activity_at := none }],
    markers := [], nextInvId := 100, nextMarkerId := 100 }

/-- Witness for C10: on the revoked invitation, progress still succeeds,
its session row is rewritten and `last_activity_at` is touched. -/
theorem progress_notes_ignore_status_witness :
    (updateProgress exDbRevokedSession 50 "tok-revoked" "ch-2" 80).fst = .ok ∧
    lastActivityByToken
      (updateProgress exDbRevokedSession 50 "tok-revoked" "ch-2" 80).snd "tok-revoked"
      = some (some 50) ∧
    ({ invitation_id := 11, last_chapter_id := some "ch-2",
       completion_percentage := 80, notes := "", last_activity_at := some 50 } : Session)
      ∈ (updateProgress exDbRevokedSession 50 "tok-revoked" "ch-2" 80).snd.sessions := by
  obtain ⟨h1, h2, h3, _, _, _⟩ := progress_notes_ignore_status exDbRevokedSession 50
    "tok-revoked" "ch-2" 80 "n" exRevokedInvitation (by decide) (Or.inl rfl)
  exact ⟨h1, h2, h3
    { invitation_id := 11, last_chapter_id := none, completion_percentage := 0,
      notes := "", last_activity_at := none } (by decide) rfl⟩

/-- The SET clause of the marker-import update
(`imported_to_project = true, imported_at = NOW()` on the matching row). -/
def importStamp (now markerRowId : Nat) : Marker → Marker :=
  fun mk => if mk.id == markerRowId then
    { mk with imported_to_project := true, imported_at := some now }
  else mk

/-- The annotation object returned by the import endpoint, as a function
of the marker row and its invitation. -/
def annotationOf (m : Marker) (ri : Invitation) : Annotation :=
  { id := m.marker_id, type := m.marker_type,
    text := "[" ++ ri.reader_name ++ "]\n" ++ m.marker_text,
    highlightedText := m.highlighted_text, positionData := m.position_data,
    chapterId := m.chapter_id, sceneId := m.scene_id, isReaderFeedback := true,
    readerName := ri.reader_name, createdAt := m.created_at }

/-- A successful import returns the annotation of the looked-up marker and
stamps exactly the matching marker rows. -/
theorem importMarker_eq (db : DB) (now authorId markerRowId : Nat) (m : Marker)
    (ri : Invitation)
    (hlook : lookupOwnedMarker db authorId markerRowId = some (m, ri)) :
    importMarker db now authorId markerRowId
      = (.imported (annotationOf m ri),
         { db with markers := db.markers.map (importStamp now markerRowId) }) := by
  simp only [importMarker, hlook]
  rfl

/-- The ownership join still finds the (stamped) marker after an import
update: the joins run on fields the stamp never touches. -/
theorem lookupOwnedMarker_after_stamp (db : DB) (authorId markerRowId stamp : Nat)
    (m : Marker) (ri : Invitation)
    (hlook : lookupOwnedMarker db authorId markerRowId = some (m, ri)) :
    lookupOwnedMarker
        { db with markers := db.markers.map (importStamp stamp markerRowId) }
        authorId markerRowId
      = some ({ m with imported_to_project := true, imported_at := some stamp }, ri) := by
  unfold lookupOwnedMarker at hlook ⊢
  split at hlook
  · simp at hlook
  · rename_i m0 hm
    split at hlook
    · simp at hlook
    · rename_i ri0 hri
      split at hlook
      · simp at hlook
      · rename_i p0 hp
        simp only [Option.some.injEq, Prod.mk.injEq] at hlook
        obtain ⟨hm0, hri0⟩ := hlook
        rw [hm0] at hm hri
        rw [hri0] at hri hp
        have hpm : (m.id == markerRowId) = true := by
          simpa using List.find?_some hm
        have hm1 : (db.markers.map (importStamp stamp markerRowId)).find?
            (fun x => x.id == markerRowId)
            = some { m with imported_to_project := true, imported_at := some stamp } := by
          rw [find?_map_pres (importStamp stamp markerRowId) _
            (fun x => by unfold importStamp; by_cases hx : (x.id == markerRowId) = true <;>
              simp [hx]), hm]
          simp [importStamp, hpm]
        dsimp only
        rw [hm1]
        dsimp only
        rw [hri]
        dsimp only
        rw [hp]

/-- Stamping twice with different timestamps equals stamping once with the
second timestamp. -/
theorem importStamp_squash (t1 t2 markerRowId : Nat) (l : List Marker) :
    (l.map (importStamp t1 markerRowId)).map (importStamp t2 markerRowId)
      = l.map (importStamp t2 markerRowId) := by
  rw [List.map_map]
  apply List.map_congr_left
  intro x _
  by_cases hx : (x.id == markerRowId) = true <;>
    simp [importStamp, Function.comp, hx]

/-- Every stamped row matching the marker id carries the imported flag and
the stamp's timestamp. -/
theorem importStamp_marks (stamp markerRowId : Nat) (l : List Marker) :
    ∀ mk ∈ l.map (importStamp stamp markerRowId), mk.id = markerRowId →
      mk.imported_to_project = true ∧ mk.imported_at = some stamp := by
  intro mk hmk hid
  obtain ⟨x, hx, rfl⟩ := List.mem_map.mp hmk
  by_cases hbx : (x.id == markerRowId) = true
  · simp [importStamp, hbx]
  · exfalso
    apply hbx
    have hxid : x.id = markerRowId := by
      simpa [importStamp, hbx] using hid
    simp [hxid]

/-- C8: ImportMarker is idempotent on an author-owned marker: both calls
succeed, the second returns the same annotation (whose text is the
reader's bracketed name on its own line before the marker text), the store
after the second call equals the store after a single import at the second
timestamp, and the marker row ends imported with the second timestamp. -/
theorem importMarker_idempotent (db : DB) (t1 t2 : Nat) (authorId markerRowId : Nat)
    (m : Marker) (ri : Invitation)
    (hlook : lookupOwnedMarker db authorId markerRowId = some (m, ri)) :
    ∃ a1 a2 : Annotation,
      (importMarker db t1 authorId markerRowId).fst = .imported a1 ∧
      (importMarker (importMarker db t1 authorId markerRowId).snd t2 authorId
        markerRowId).fst = .imported a2 ∧
      a2 = a1 ∧
      a1.text = "[" ++ ri.reader_name ++ "]\n" ++ m.marker_text ∧
      (importMarker (importMarker db t1 authorId markerRowId).snd t2 authorId
          markerRowId).snd
        = (importMarker db t2 authorId markerRowId).snd ∧
      (∀ mk ∈ (importMarker (importMarker db t1 authorId markerRowId).snd t2 authorId
          markerRowId).snd.markers,
        mk.id = markerRowId →
          mk.imported_to_project = true ∧ mk.imported_at = some t2) := by
  have h1 := importMarker_eq db t1 authorId markerRowId m ri hlook
  have hlook1 := lookupOwnedMarker_after_stamp db authorId markerRowId t1 m ri hlook
  have h2 := importMarker_eq
    { db with markers := db.markers.map (importStamp t1 markerRowId) } t2 authorId
    markerRowId { m with imported_to_project := true, imported_at := some t1 } ri hlook1
  have h3 := importMarker_eq db t2 authorId markerRowId m ri hlook
  refine ⟨annotationOf m ri,
    annotationOf { m with imported_to_project := true, imported_at := some t1 } ri,
    ?_, ?_, rfl, rfl, ?_, ?_⟩
  · rw [h1]
  · rw [h1]
    dsimp only
    rw [h2]
  · rw [h1]
    dsimp only
    rw [h2, h3]
    dsimp only
    rw [importStamp_squash t1 t2 markerRowId db.markers]
  · rw [h1]
    dsimp only
    rw [h2]
    dsimp only
    intro mk hmk hid
    exact importStamp_marks t2 markerRowId _ mk hmk hid

/-- A marker row by the accepted-invitation reader, not yet imported. -/
def exMarker : Marker :=
  { id := 30, invitation_id := 13, project_id := 1, chapter_id := "ch-1",
    scene_id := "sc-1", marker_id := "m-xyz", marker_type := "note",
    marker_text := "great", highlighted_text := "hl", position_data := "pos",
    imported_to_project := false, imported_at := none, created_at := 5 }

/-- Store with the accepted invitation and its marker. -/
def exDbMarker : DB :=
  { users := [{ user_id := 7, first_name := "A", last_name := "B", username := "ab" }],
    projects := [exProject], invitations := [exAcceptedInvitation], sessions := [],
    markers := [exMarker], nextInvId := 100, nextMarkerId := 100 }

/-- Witness for C8: importing marker 30 at times 40 and then 60 succeeds
twice with the same annotation, and ends in the single-import-at-60
store. -/
theorem importMarker_idempotent_witness :
    ∃ a1 a2 : Annotation,
      (importMarker exDbMarker 40 7 30).fst = .imported a1 ∧
      (importMarker (importMarker exDbMarker 40 7 30).snd 60 7 30).fst
        = .imported a2 ∧
      a2 = a1 ∧
      a1.text = "[Dee]\ngreat" ∧
      (importMarker (importMarker exDbMarker 40 7 30).snd 60 7 30).snd
        = (importMarker exDbMarker 60 7 30).snd := by
  obtain ⟨a1, a2, h1, h2, h3, h4, h5, h6⟩ := importMarker_idempotent exDbMarker 40 60
    7 30 exMarker exAcceptedInvitation (by decide)
  exact ⟨a1, a2, h1, h2, h3, h4, h5⟩

end Lyra
